import Mathlib

/-!
Shallow embedding of the STUN wire-format codec from lai0xn/stun.

Conventions of the embedding:
* Go byte slices are `List Nat`; each element stands for a `byte` and reads
  through the slice apply `% 256`, the value stored in a `byte` cell.
* Go machine integers are `Nat` with explicit `% 2 ^ w` exactly where the Go
  type system truncates (`byte(x)`, `uint16(x)`).
* A Go function that can panic on out-of-range indexing or slicing is
  embedded as an `Option`-returning function; `none` is the panic.
* Randomness (`crypto/rand` in `randomTransactionID`) is embedded by passing
  the drawn 12 bytes as an explicit argument.
-/

/-- MagicCookie constant from constants.go. -/
def magicCookie : Nat := 0x2112A442

/-- BindingRequest message type constant (0x0001) from constants.go. -/
def BindingRequest : Nat := 0x0001

/-- BindingResponse message type constant (0x0101) from constants.go. -/
def BindingResponse : Nat := 0x0101

/-- XORMappedAddress attribute type constant (0x0020) from constants.go. -/
def XORMappedAddress : Nat := 0x0020

/-- XORMappedAddressLength constant (8) from constants.go. -/
def XORMappedAddressLength : Nat := 8

/-- IPV4 family constant (0x01) from xor_addr.go. -/
def IPV4 : Nat := 0x01

/-- Error values declared in constants.go (ErrShortBuffer, ErrAttrNotFound). -/
inductive StunError where
  | shortBuffer
  | attrNotFound
deriving DecidableEq, Repr

/-- Header structure from header.go: Type uint16, Length uint16,
MagicCookie uint32, TransactionID [12]byte. -/
structure Header where
  Typ : Nat
  Length : Nat
  MagicCookie : Nat
  TransactionID : List Nat
deriving DecidableEq, Repr

/-- encodeHeader from header.go: writes Type, Length, MagicCookie big-endian
followed by the 12 transaction-ID bytes into a 20-byte buffer.
Go `byte(x >> k)` and `byte(x & 0xff)` truncate to the low 8 bits,
modelled as `% 256`; `copy(buff[8:], header.TransactionID[:])` copies the
12 array cells verbatim. -/
def encodeHeader (h : Header) : List Nat :=
  [ (h.Typ >>> 8) % 256, h.Typ % 256,
    (h.Length >>> 8) % 256, h.Length % 256,
    (h.MagicCookie >>> 24) % 256, (h.MagicCookie >>> 16) % 256,
    (h.MagicCookie >>> 8) % 256, h.MagicCookie % 256 ]
  ++ (h.TransactionID.take 12 ++ List.replicate (12 - h.TransactionID.length) 0)

/-- decodeHeader from header.go (the draft in src/header.go): reads the four
fields big-endian without any length validation.  Indexing `buff[0]`..`buff[7]`
panics when the buffer has fewer than 8 bytes (`none` here); `copy` into the
zero-initialised `[12]byte` transfers `min 12 (len - 8)` bytes and leaves the
rest zero. -/
def decodeHeader (buff : List Nat) : Option Header :=
  if 8 ≤ buff.length then
    let t := (buff.drop 8).take 12
    some { Typ := ((buff.getD 0 0 % 256) <<< 8) ||| (buff.getD 1 0 % 256),
           Length := ((buff.getD 2 0 % 256) <<< 8) ||| (buff.getD 3 0 % 256),
           MagicCookie := ((buff.getD 4 0 % 256) <<< 24) ||| ((buff.getD 5 0 % 256) <<< 16)
             ||| ((buff.getD 6 0 % 256) <<< 8) ||| (buff.getD 7 0 % 256),
           TransactionID := t ++ List.replicate (12 - t.length) 0 }
  else none

/-- Modelled from the spec: the current package-stun header decoder is absent
from src/ (src/header.go holds the superseded stunlib draft; only the caller
NewMessage and the ErrShortBuffer declaration of the current decoder appear).
Spec 4.1: requires at least 20 bytes, else fails with ShortBuffer; reads
message type (bytes 0-1 big-endian), length (bytes 2-3 big-endian), magic
cookie (bytes 4-7 big-endian) and transaction ID (bytes 8-19 verbatim);
no validation of the message type is performed. -/
def decodeHeaderCurrent (buff : List Nat) : Except StunError Header :=
  if buff.length < 20 then .error .shortBuffer
  else .ok
    { Typ := ((buff.getD 0 0 % 256) <<< 8) ||| (buff.getD 1 0 % 256),
      Length := ((buff.getD 2 0 % 256) <<< 8) ||| (buff.getD 3 0 % 256),
      MagicCookie := ((buff.getD 4 0 % 256) <<< 24) ||| ((buff.getD 5 0 % 256) <<< 16)
        ||| ((buff.getD 6 0 % 256) <<< 8) ||| (buff.getD 7 0 % 256),
      TransactionID := (buff.drop 8).take 12 }

/-- Attribute structure from attribute.go: Length uint16, Type uint16,
PaddedLength int, Value []byte. -/
structure Attribute where
  Length : Nat
  Typ : Nat
  PaddedLength : Nat
  Value : List Nat
deriving DecidableEq, Repr

/-- The padded-length computation inside DecodeStunAttr (attribute.go):
round the declared length up to the next multiple of 4, no rounding when
already a multiple of 4. -/
def paddedOf (n : Nat) : Nat :=
  if n % 4 = 0 then n else n + (4 - n % 4)

/-- DecodeStunAttr from attribute.go: type from bytes 0-1 big-endian, declared
length from bytes 2-3 big-endian, padded length from `paddedOf`, and value
`buff[4 : 4+paddedLen]`.  Indexing bytes 0-3 panics below 4 bytes and the
value slice panics when `4 + paddedLen` exceeds the buffer length (`none`). -/
def DecodeStunAttr (buff : List Nat) : Option Attribute :=
  if 4 ≤ buff.length then
    let attrTyp := ((buff.getD 0 0 % 256) <<< 8) ||| (buff.getD 1 0 % 256)
    let attrLen := ((buff.getD 2 0 % 256) <<< 8) ||| (buff.getD 3 0 % 256)
    let paddedLen := paddedOf attrLen
    if 4 + paddedLen ≤ buff.length then
      some { Typ := attrTyp, Length := attrLen, PaddedLength := paddedLen,
             Value := (buff.drop 4).take paddedLen }
    else none
  else none

/-- Attribute.Encode from the attribute draft (src/unnamed/part_000): allocates
`4 + PaddedLength` zeroed bytes, writes Type and Length big-endian into the
first 4 and copies Value from offset 4 (`copy` transfers at most
`PaddedLength` bytes, the untouched tail stays zero). -/
def Attribute.Encode (a : Attribute) : List Nat :=
  [ (a.Typ >>> 8) % 256, a.Typ % 256,
    (a.Length >>> 8) % 256, a.Length % 256 ]
  ++ (a.Value.take a.PaddedLength ++ List.replicate (a.PaddedLength - a.Value.length) 0)

/-- The loop of decodeAttrs (message.go): starting at `offset`, decode one
attribute, advance by `4 + PaddedLength`, repeat while `offset < length`.
A panic in DecodeStunAttr propagates. -/
def decodeAttrsAux (buff : List Nat) (length offset : Nat) : Option (List Attribute) :=
  if h : offset < length then
    match DecodeStunAttr (buff.drop offset) with
    | none => none
    | some attr =>
      match decodeAttrsAux buff length (offset + (4 + attr.PaddedLength)) with
      | none => none
      | some rest => some (attr :: rest)
  else some []
termination_by length - offset
decreasing_by omega

/-- decodeAttrs from message.go: iterate DecodeStunAttr over the attribute
section until the cursor reaches `length`. -/
def decodeAttrs (buff : List Nat) (length : Nat) : Option (List Attribute) :=
  decodeAttrsAux buff length 0

/-- Message structure from the current message code (src/CHANGELOG.md related
section): a header plus the ordered attribute list. -/
structure Message where
  Header : Header
  Attributes : List Attribute
deriving DecidableEq, Repr

/-- Message.GetAttr from the current message code: return the first attribute
in wire order whose type matches, with a found flag. -/
def Message.GetAttr (m : Message) (t : Nat) : Option Attribute :=
  m.Attributes.find? (fun attr => attr.Typ == t)

/-- XorMappedAddr structure from xor_addr.go. -/
structure XorMappedAddr where
  Family : Nat
  IP : List Nat
  Port : Nat
deriving DecidableEq, Repr

/-- net.IP.To4 from the Go standard library, as used by serializeAddr:
a 4-byte slice is returned as is, a 16-byte IPv4-mapped slice yields its last
4 bytes, anything else is nil. -/
def ipTo4 (ip : List Nat) : Option (List Nat) :=
  if ip.length = 4 then some ip
  else if ip.length = 16 ∧ ip.take 10 = List.replicate 10 0
      ∧ ip.getD 10 0 = 0xff ∧ ip.getD 11 0 = 0xff then
    some (ip.drop 12)
  else none

/-- The big-endian bytes of the magic cookie, as produced by
binary.BigEndian.PutUint32 in serializeAddr. -/
def magicCookieBytes : List Nat := [0x21, 0x12, 0xA4, 0x42]

/-- serializeAddr from xor_addr.go: fails unless the address is IPv4; writes
reserved 0, family 1, the port XORed with the high 16 bits of the magic
cookie big-endian, then the 4 address bytes XORed with the cookie bytes.
The transactionID parameter appears in the Go signature but is never used. -/
def serializeAddr (addr : XorMappedAddr) (transactionID : List Nat) : Option (List Nat) :=
  match ipTo4 addr.IP with
  | none => none
  | some ipv4 =>
    let xorPort := addr.Port ^^^ ((magicCookie >>> 16) % 65536)
    some ([0, IPV4 % 256, (xorPort >>> 8) % 256, xorPort % 256]
      ++ List.zipWith (fun a b => (a % 256) ^^^ (b % 256)) ipv4 magicCookieBytes)

/-- decodeAddr from xor_addr.go: family from byte 1, port from bytes 2-3
big-endian XORed with the high 16 bits of the cookie, address from bytes 4-7
XORed with the cookie (binary.BigEndian round trip).  The slice `addr[4:8]`
panics when the input has fewer than 8 bytes (`none`). -/
def decodeAddr (addr : List Nat) : Option XorMappedAddr :=
  if 8 ≤ addr.length then
    let familly := addr.getD 1 0 % 256
    let x := (magicCookie >>> 16) % 65536
    let port := ((((addr.getD 2 0 % 256) <<< 8) ||| (addr.getD 3 0 % 256)) ^^^ x) % 65536
    let u := ((addr.getD 4 0 % 256) <<< 24) ||| ((addr.getD 5 0 % 256) <<< 16)
      ||| ((addr.getD 6 0 % 256) <<< 8) ||| (addr.getD 7 0 % 256)
    let v := (u ^^^ magicCookie) % 4294967296
    some { Family := familly,
           IP := [(v >>> 24) % 256, (v >>> 16) % 256, (v >>> 8) % 256, v % 256],
           Port := port }
  else none

/-- Message.GetXorAddr from the current message code: for a non binding
response return (nil, nil); otherwise return the decoded first
XOR-MAPPED-ADDRESS attribute, or ErrAttrNotFound when absent.  The Go result
pair (*XorMappedAddr, error) is the inner pair; the outer Option is the
panic that decodeAddr raises on a short attribute value. -/
def Message.GetXorAddr (m : Message) : Option (Option XorMappedAddr × Option StunError) :=
  if m.Header.Typ ≠ BindingResponse then some (none, none)
  else
    match m.GetAttr XORMappedAddress with
    | some attr =>
      match decodeAddr attr.Value with
      | none => none
      | some x => some (some x, none)
    | none => some (none, some .attrNotFound)

/-- The header population performed by Client.Dial (client.go) before
encoding: magic cookie set to the protocol constant, Length set to
`uint16(len(m.Attributes))`, TransactionID set to the 12 random bytes drawn
by randomTransactionID (passed explicitly here). -/
def dialPopulateHeader (m : Message) (tid : List Nat) : Header :=
  { m.Header with
    MagicCookie := magicCookie,
    Length := m.Attributes.length % 65536,
    TransactionID := tid }

/-- The byte length of the wire encoding of an attribute list, i.e. the sum
of `(a.Encode).length` over the attributes. -/
def attrsEncodedLength (attrs : List Attribute) : Nat :=
  (attrs.map (fun a => a.Encode.length)).sum

/-- The response construction of Server.HandleUDPConn (src/unnamed/part_004):
serialize the XOR-mapped address of the observed peer, wrap it in one
XOR-MAPPED-ADDRESS attribute and build a binding-response header reusing the
request transaction ID and the magic cookie.  Serialization failure aborts
the handler (`none`). -/
def handleBuildResponse (trID remoteIP : List Nat) (remotePort : Nat) : Option Message :=
  match serializeAddr { Family := IPV4, IP := remoteIP, Port := remotePort } trID with
  | none => none
  | some xorAddr =>
    some { Header := { Typ := BindingResponse,
                       Length := XORMappedAddressLength + 4,
                       TransactionID := trID,
                       MagicCookie := magicCookie },
           Attributes := [ { Length := XORMappedAddressLength,
                             Typ := XORMappedAddress,
                             PaddedLength := XORMappedAddressLength,
                             Value := xorAddr } ] }

theorem lor_shiftLeft_eq_add (a b k : Nat) (hb : b < 2 ^ k) :
    ((a <<< k) ||| b) = a * 2 ^ k + b := by
  apply Nat.eq_of_testBit_eq
  intro i
  rw [Nat.mul_comm a (2 ^ k), Nat.testBit_mul_pow_two_add a hb i]
  rw [Nat.testBit_or, Nat.testBit_shiftLeft]
  by_cases hik : i < k
  · simp [hik, Nat.not_le.mpr hik]
  · have hk : k ≤ i := Nat.le_of_not_lt hik
    have hbi : b.testBit i = false :=
      Nat.testBit_lt_two_pow (Nat.lt_of_lt_of_le hb (Nat.pow_le_pow_right (by norm_num) hk))
    simp [hik, hk, hbi]

theorem xor_mul_add (a b c d k : Nat) (hb : b < 2 ^ k) (hd : d < 2 ^ k) :
    ((a * 2 ^ k + b) ^^^ (c * 2 ^ k + d)) = (a ^^^ c) * 2 ^ k + (b ^^^ d) := by
  apply Nat.eq_of_testBit_eq
  intro i
  rw [Nat.mul_comm (a ^^^ c) (2 ^ k),
    Nat.testBit_mul_pow_two_add (a ^^^ c) (Nat.xor_lt_two_pow hb hd) i]
  rw [Nat.testBit_xor, Nat.mul_comm a (2 ^ k), Nat.testBit_mul_pow_two_add a hb i,
    Nat.mul_comm c (2 ^ k), Nat.testBit_mul_pow_two_add c hd i]
  by_cases hik : i < k
  · simp [hik]
  · simp [hik]

theorem pack2_eq (a b : Nat) (hb : b < 256) :
    ((a <<< 8) ||| b) = a * 256 + b := by
  have hb8 : b < 2 ^ 8 := by omega
  rw [lor_shiftLeft_eq_add a b 8 hb8]
  norm_num

theorem pack4_eq (a b c d : Nat) (hb : b < 256) (hc : c < 256) (hd : d < 256) :
    ((a <<< 24) ||| (b <<< 16) ||| (c <<< 8) ||| d) = ((a * 256 + b) * 256 + c) * 256 + d := by
  have e1 : (a <<< 24) ||| (b <<< 16) = ((a * 256 + b) <<< 16) := by
    have hlt : b <<< 16 < 2 ^ 24 := by rw [Nat.shiftLeft_eq]; norm_num; omega
    rw [lor_shiftLeft_eq_add a _ 24 hlt]
    simp only [Nat.shiftLeft_eq]
    norm_num
    ring
  have e2 : ((a * 256 + b) <<< 16) ||| (c <<< 8) = (((a * 256 + b) * 256 + c) <<< 8) := by
    have hlt : c <<< 8 < 2 ^ 16 := by rw [Nat.shiftLeft_eq]; norm_num; omega
    rw [lor_shiftLeft_eq_add _ _ 16 hlt]
    simp only [Nat.shiftLeft_eq]
    norm_num
    ring
  have e3 : (((a * 256 + b) * 256 + c) <<< 8) ||| d = ((a * 256 + b) * 256 + c) * 256 + d := by
    have hd8 : d < 2 ^ 8 := by omega
    rw [lor_shiftLeft_eq_add _ _ 8 hd8]
    norm_num
  rw [e1, e2, e3]

theorem roundtrip16 (x : Nat) (hx : x < 65536) :
    ((((x >>> 8) % 256) <<< 8) ||| (x % 256)) = x := by
  rw [pack2_eq _ _ (Nat.mod_lt _ (by norm_num))]
  rw [Nat.shiftRight_eq_div_pow]
  norm_num
  omega

theorem xor_byte_lt (a b : Nat) (ha : a < 256) (hb : b < 256) : (a ^^^ b) < 256 := by
  have := @Nat.xor_lt_two_pow a b 8 (by omega) (by omega)
  omega

theorem xor16_lt (a b : Nat) (ha : a < 65536) (hb : b < 65536) : (a ^^^ b) < 65536 := by
  have := @Nat.xor_lt_two_pow a b 16 (by omega) (by omega)
  omega

theorem xor_mul256_add (a b c d : Nat) (hb : b < 256) (hd : d < 256) :
    ((a * 256 + b) ^^^ (c * 256 + d)) = (a ^^^ c) * 256 + (b ^^^ d) := by
  have h := xor_mul_add a b c d 8 (by omega) (by omega)
  norm_num at h
  exact h

theorem serializeAddr_decodeAddr (f p i0 i1 i2 i3 : Nat) (tid : List Nat)
    (h0 : i0 < 256) (h1 : i1 < 256) (h2 : i2 < 256) (h3 : i3 < 256) (hp : p < 65536) :
    serializeAddr ⟨f, [i0, i1, i2, i3], p⟩ tid =
      some [0, 1, ((p ^^^ 8466) >>> 8) % 256, (p ^^^ 8466) % 256,
            (i0 % 256) ^^^ 33, (i1 % 256) ^^^ 18, (i2 % 256) ^^^ 164, (i3 % 256) ^^^ 66] ∧
    decodeAddr [0, 1, ((p ^^^ 8466) >>> 8) % 256, (p ^^^ 8466) % 256,
            (i0 % 256) ^^^ 33, (i1 % 256) ^^^ 18, (i2 % 256) ^^^ 164, (i3 % 256) ^^^ 66] =
      some ⟨IPV4, [i0, i1, i2, i3], p⟩ := by
  constructor
  · rfl
  · have e0 : i0 % 256 = i0 := Nat.mod_eq_of_lt h0
    have e1 : i1 % 256 = i1 := Nat.mod_eq_of_lt h1
    have e2 : i2 % 256 = i2 := Nat.mod_eq_of_lt h2
    have e3 : i3 % 256 = i3 := Nat.mod_eq_of_lt h3
    rw [e0, e1, e2, e3]
    have hxp : (p ^^^ 8466) < 65536 := xor16_lt p 8466 hp (by norm_num)
    have hA : (i0 ^^^ 33) < 256 := xor_byte_lt i0 33 h0 (by norm_num)
    have hB : (i1 ^^^ 18) < 256 := xor_byte_lt i1 18 h1 (by norm_num)
    have hC : (i2 ^^^ 164) < 256 := xor_byte_lt i2 164 h2 (by norm_num)
    have hD : (i3 ^^^ 66) < 256 := xor_byte_lt i3 66 h3 (by norm_num)
    unfold decodeAddr
    simp only [List.length_cons, List.length_nil, List.getD, List.get?]
    norm_num
    have hmc16 : (magicCookie >>> 16) % 65536 = 8466 := by
      norm_num [magicCookie, Nat.shiftRight_eq_div_pow]
    have hcookie : magicCookie = ((33 * 256 + 18) * 256 + 164) * 256 + 66 := by
      norm_num [magicCookie]
    rw [Nat.mod_eq_of_lt hA, Nat.mod_eq_of_lt hB, Nat.mod_eq_of_lt hC, Nat.mod_eq_of_lt hD,
      hmc16, roundtrip16 _ hxp, Nat.xor_cancel_right,
      pack4_eq _ _ _ _ hB hC hD, hcookie,
      xor_mul256_add _ _ _ _ hD (by norm_num),
      xor_mul256_add _ _ _ _ hC (by norm_num),
      xor_mul256_add _ _ _ _ hB (by norm_num),
      Nat.xor_cancel_right, Nat.xor_cancel_right, Nat.xor_cancel_right, Nat.xor_cancel_right]
    refine ⟨rfl, ⟨?_, ?_, ?_, ?_⟩, Nat.mod_eq_of_lt hp⟩
    all_goals omega

theorem roundtrip32 (x : Nat) (hx : x < 4294967296) :
    ((((x >>> 24) % 256) <<< 24) ||| (((x >>> 16) % 256) <<< 16) |||
      (((x >>> 8) % 256) <<< 8) ||| (x % 256)) = x := by
  rw [pack4_eq _ _ _ _ (by omega) (by omega) (by omega)]
  omega

theorem list_eq_four {α : Type} (l : List α) (h : l.length = 4) :
    ∃ a b c d, l = [a, b, c, d] := by
  rcases l with _ | ⟨a, t⟩
  · simp at h
  rcases t with _ | ⟨b, t⟩
  · simp at h
  rcases t with _ | ⟨c, t⟩
  · simp at h
  rcases t with _ | ⟨d, t⟩
  · simp at h
  rcases t with _ | ⟨e, t⟩
  · exact ⟨a, b, c, d, rfl⟩
  · simp at h

/-- Claim C1: the XOR-mapped-address transform is self-inverse: for every
XorMappedAddr holding a 4-byte IPv4 address and any 16-bit port, decoding the
8-byte buffer produced by serializeAddr recovers the IPv4 family, the address
and the port exactly; in particular the recovered port equals the original
port for every port value. -/
theorem xorMappedAddr_roundtrip (a : XorMappedAddr) (tid : List Nat)
    (hlen : a.IP.length = 4) (hbytes : ∀ b ∈ a.IP, b < 256) (hport : a.Port < 65536) :
    ∃ buf, serializeAddr a tid = some buf ∧ buf.length = 8 ∧
      decodeAddr buf = some { Family := IPV4, IP := a.IP, Port := a.Port } := by
  obtain ⟨f, ip, p⟩ := a
  simp only at hlen hbytes hport ⊢
  obtain ⟨i0, i1, i2, i3, rfl⟩ := list_eq_four ip hlen
  have h0 : i0 < 256 := hbytes _ (by simp)
  have h1 : i1 < 256 := hbytes _ (by simp)
  have h2 : i2 < 256 := hbytes _ (by simp)
  have h3 : i3 < 256 := hbytes _ (by simp)
  obtain ⟨hser, hdec⟩ := serializeAddr_decodeAddr f p i0 i1 i2 i3 tid h0 h1 h2 h3 hport
  exact ⟨_, hser, rfl, hdec⟩

/-- Claim C1 witness: the concrete address 203.0.113.5 with port 54321 and a fixed
transaction ID round-trips through serializeAddr and decodeAddr. -/
theorem xorMappedAddr_roundtrip_witness :
    ∃ buf, serializeAddr ⟨1, [203, 0, 113, 5], 54321⟩ [1, 2, 3, 4, 5, 6, 7, 8, 9, 10, 11, 12] = some buf ∧
      buf.length = 8 ∧
      decodeAddr buf = some { Family := IPV4, IP := [203, 0, 113, 5], Port := 54321 } :=
  xorMappedAddr_roundtrip ⟨1, [203, 0, 113, 5], 54321⟩ [1, 2, 3, 4, 5, 6, 7, 8, 9, 10, 11, 12]
    (by decide) (by decide) (by decide)

/-- Claim C10: serializeAddr ignores its transaction-ID parameter: for every address
and any two transaction IDs the produced buffers are identical. -/
theorem serializeAddr_ignores_transactionID (addr : XorMappedAddr) (t1 t2 : List Nat) :
    serializeAddr addr t1 = serializeAddr addr t2 := rfl

/-- Claim C8: the padded length computed by attribute decode equals the declared
length when it is a multiple of 4 and otherwise the declared length plus the
distance to the next multiple of 4; it is always a multiple of 4 and at least
the declared length. -/
theorem decodeStunAttr_padding_law (buff : List Nat) (a : Attribute)
    (h : DecodeStunAttr buff = some a) :
    a.PaddedLength = (if a.Length % 4 = 0 then a.Length else a.Length + (4 - a.Length % 4)) ∧
    a.PaddedLength % 4 = 0 ∧ a.Length ≤ a.PaddedLength := by
  unfold DecodeStunAttr at h
  split at h
  · dsimp only at h
    split at h
    · injection h with h
      subst h
      simp only
      unfold paddedOf
      refine ⟨rfl, ?_, ?_⟩ <;> split <;> omega
    · exact absurd h (by simp)
  · exact absurd h (by simp)

/-- Claim C8 witness: a concrete attribute with declared length 5 decodes with
padded length 8, a multiple of 4 and at least 5. -/
theorem decodeStunAttr_padding_law_witness :
    DecodeStunAttr [0, 1, 0, 5, 10, 20, 30, 40, 50, 0, 0, 0] =
      some ⟨5, 1, 8, [10, 20, 30, 40, 50, 0, 0, 0]⟩ ∧
    ((8 : Nat) = (if (5 : Nat) % 4 = 0 then 5 else 5 + (4 - 5 % 4)) ∧
      (8 : Nat) % 4 = 0 ∧ (5 : Nat) ≤ 8) :=
  ⟨by decide,
   decodeStunAttr_padding_law [0, 1, 0, 5, 10, 20, 30, 40, 50, 0, 0, 0]
     ⟨5, 1, 8, [10, 20, 30, 40, 50, 0, 0, 0]⟩ (by decide)⟩

/-- Claim C6: header round trip: encoding any valid header yields exactly 20 bytes
and decoding them recovers every field. -/
theorem header_roundtrip (h : Header) (hT : h.Typ < 65536) (hL : h.Length < 65536)
    (hM : h.MagicCookie < 4294967296) (htid : h.TransactionID.length = 12) :
    (encodeHeader h).length = 20 ∧ decodeHeader (encodeHeader h) = some h := by
  obtain ⟨t, l, m, tr⟩ := h
  simp only at hT hL hM htid
  have htake : tr.take 12 = tr := List.take_of_length_le (by omega)
  have hrep : List.replicate (12 - tr.length) (0 : Nat) = [] := by
    rw [htid]
    rfl
  constructor
  · simp [encodeHeader, htake, hrep, htid]
  · unfold encodeHeader decodeHeader
    rw [htake, hrep, List.append_nil]
    rw [if_pos (by simp)]
    simp only [List.getD, List.cons_append, List.get?, List.drop_succ_cons,
      List.drop_zero, Option.getD_some, Nat.mod_mod, List.take_append_of_le_length,
      Option.some.injEq]
    rw [Header.mk.injEq]
    refine ⟨roundtrip16 t hT, roundtrip16 l hL, roundtrip32 m hM, ?_⟩
    simp [htake, htid]

/-- Claim C6 witness: a concrete binding-request header round-trips through
encodeHeader and decodeHeader and its encoding is 20 bytes. -/
theorem header_roundtrip_witness :
    (encodeHeader ⟨1, 0, 0x2112A442, [1, 2, 3, 4, 5, 6, 7, 8, 9, 10, 11, 12]⟩).length = 20 ∧
    decodeHeader (encodeHeader ⟨1, 0, 0x2112A442, [1, 2, 3, 4, 5, 6, 7, 8, 9, 10, 11, 12]⟩) =
      some ⟨1, 0, 0x2112A442, [1, 2, 3, 4, 5, 6, 7, 8, 9, 10, 11, 12]⟩ :=
  header_roundtrip ⟨1, 0, 0x2112A442, [1, 2, 3, 4, 5, 6, 7, 8, 9, 10, 11, 12]⟩
    (by decide) (by decide) (by decide) (by decide)

/-- Claim C7: attribute round trip: an attribute whose value buffer is exactly
padded-length long and whose padded length is the padding of its declared
length decodes from its own encoding unchanged in every field. -/
theorem attribute_roundtrip (a : Attribute) (hT : a.Typ < 65536) (hL : a.Length < 65536)
    (hv : a.Value.length = a.PaddedLength) (hpad : a.PaddedLength = paddedOf a.Length) :
    DecodeStunAttr a.Encode = some a := by
  obtain ⟨l, t, pl, v⟩ := a
  simp only at hT hL hv hpad ⊢
  have htake : v.take pl = v := List.take_of_length_le (by omega)
  have hrep : List.replicate (pl - v.length) (0 : Nat) = [] := by
    rw [hv, Nat.sub_self]
    rfl
  unfold Attribute.Encode DecodeStunAttr
  simp only [htake, hrep, List.append_nil]
  rw [if_pos (by simp)]
  simp only [List.getD, List.cons_append, List.get?, List.drop_succ_cons,
    List.drop_zero, Option.getD_some, Nat.mod_mod]
  rw [roundtrip16 t hT, roundtrip16 l hL, ← hpad]
  rw [if_pos (by simp; omega)]
  simp only [Option.some.injEq, Attribute.mk.injEq, List.nil_append, true_and]
  rw [List.take_of_length_le (by omega)]

/-- Claim C7 witness: a concrete attribute with declared length 5, padded length 8
and an 8-byte value buffer decodes from its own encoding unchanged. -/
theorem attribute_roundtrip_witness :
    DecodeStunAttr (Attribute.Encode ⟨5, 6, 8, [97, 98, 99, 100, 101, 0, 0, 0]⟩) =
      some ⟨5, 6, 8, [97, 98, 99, 100, 101, 0, 0, 0]⟩ :=
  attribute_roundtrip ⟨5, 6, 8, [97, 98, 99, 100, 101, 0, 0, 0]⟩
    (by decide) (by decide) (by decide) (by decide)

/-- Claim C2: the current header decoder fails with ShortBuffer on every buffer of
fewer than 20 bytes (touching no byte of the input) and succeeds on every
buffer of at least 20 bytes. -/
theorem decodeHeaderCurrent_shortBuffer (buff : List Nat) :
    (buff.length < 20 → decodeHeaderCurrent buff = .error .shortBuffer) ∧
    (20 ≤ buff.length → ∃ h, decodeHeaderCurrent buff = .ok h) := by
  constructor
  · intro h
    unfold decodeHeaderCurrent
    rw [if_pos h]
  · intro h
    unfold decodeHeaderCurrent
    rw [if_neg (by omega)]
    exact ⟨_, rfl⟩

/-- Claim C2 witness: a 1-byte buffer yields ShortBuffer and a 20-byte buffer
decodes successfully. -/
theorem decodeHeaderCurrent_shortBuffer_witness :
    decodeHeaderCurrent [7] = .error .shortBuffer ∧
    ∃ h, decodeHeaderCurrent (List.replicate 20 0) = .ok h :=
  ⟨(decodeHeaderCurrent_shortBuffer [7]).1 (by decide),
   (decodeHeaderCurrent_shortBuffer (List.replicate 20 0)).2 (by decide)⟩

/-- Claim C3: the reference attribute decoder does not fail with an explicit error
on an attribute whose 4 + paddedLength exceeds the buffer: it panics on an
out-of-range slice (the `none` of the embedding), both for a single attribute
and inside the decode-all loop.  Buffer [0, 32, 0, 6] declares type 0x0020 and
length 6, so 4 + paddedLength = 12 exceeds the 4 available bytes. -/
theorem decodeStunAttr_overrun_panics :
    paddedOf 6 = 8 ∧
    DecodeStunAttr [0, 32, 0, 6] = none ∧
    decodeAttrs [0, 32, 0, 6] 4 = none := by
  refine ⟨by decide, by decide, ?_⟩
  unfold decodeAttrs decodeAttrsAux
  norm_num
  decide

/-- A fixed 12-byte transaction ID used for concrete instances. -/
def tid0 : List Nat := [1, 2, 3, 4, 5, 6, 7, 8, 9, 10, 11, 12]

/-- A concrete outgoing message holding one XOR-MAPPED-ADDRESS attribute
(declared length 8, padded length 8, 8-byte value), as the server builds. -/
def oneAttrMessage : Message :=
  { Header := { Typ := BindingRequest, Length := 0, MagicCookie := 0, TransactionID := [] },
    Attributes := [⟨8, 32, 8, [0, 1, 245, 35, 234, 18, 213, 71]⟩] }

/-- Claim C4: at the failing input, the header population of Client.Dial sets the
length field to the number of attributes (1) while the byte length of the
attribute encodings is 12; magic cookie and transaction ID are set as the
claim states. -/
theorem dial_length_is_attr_count :
    (dialPopulateHeader oneAttrMessage tid0).Length = 1 ∧
    attrsEncodedLength oneAttrMessage.Attributes = 12 ∧
    (1 : Nat) ≠ 12 ∧
    (dialPopulateHeader oneAttrMessage tid0).MagicCookie = magicCookie ∧
    (dialPopulateHeader oneAttrMessage tid0).TransactionID = tid0 := by
  refine ⟨rfl, ?_, by decide, rfl, rfl⟩
  decide

/-- Claim C5: the response the server handler builds for a binding request observed from a
4-byte peer IPv4 address and 16-bit port is a binding-response whose single
attribute is a XOR-MAPPED-ADDRESS, whose header reuses the request
transaction ID and the magic cookie, and whose attribute value decodes back
to exactly the observed peer address and port. -/
theorem handleUDPConn_response (trID ip : List Nat) (port : Nat)
    (hlen : ip.length = 4) (hbytes : ∀ b ∈ ip, b < 256) (hport : port < 65536) :
    ∃ msg attr, handleBuildResponse trID ip port = some msg ∧
      msg.Header.Typ = BindingResponse ∧
      msg.Header.TransactionID = trID ∧
      msg.Header.MagicCookie = magicCookie ∧
      msg.Attributes = [attr] ∧
      attr.Typ = XORMappedAddress ∧
      decodeAddr attr.Value = some { Family := IPV4, IP := ip, Port := port } := by
  obtain ⟨i0, i1, i2, i3, rfl⟩ := list_eq_four ip hlen
  have h0 : i0 < 256 := hbytes _ (by simp)
  have h1 : i1 < 256 := hbytes _ (by simp)
  have h2 : i2 < 256 := hbytes _ (by simp)
  have h3 : i3 < 256 := hbytes _ (by simp)
  obtain ⟨hser, hdec⟩ := serializeAddr_decodeAddr IPV4 port i0 i1 i2 i3 trID h0 h1 h2 h3 hport
  refine ⟨{ Header := { Typ := BindingResponse, Length := XORMappedAddressLength + 4,
                        TransactionID := trID, MagicCookie := magicCookie },
            Attributes := [⟨XORMappedAddressLength, XORMappedAddress, XORMappedAddressLength,
              [0, 1, (port ^^^ 8466) >>> 8 % 256, (port ^^^ 8466) % 256, (i0 % 256) ^^^ 33,
                (i1 % 256) ^^^ 18, (i2 % 256) ^^^ 164, (i3 % 256) ^^^ 66]⟩] },
          ⟨XORMappedAddressLength, XORMappedAddress, XORMappedAddressLength,
            [0, 1, (port ^^^ 8466) >>> 8 % 256, (port ^^^ 8466) % 256, (i0 % 256) ^^^ 33,
              (i1 % 256) ^^^ 18, (i2 % 256) ^^^ 164, (i3 % 256) ^^^ 66]⟩,
          ?_, rfl, rfl, rfl, rfl, rfl, hdec⟩
  unfold handleBuildResponse
  rw [hser]

/-- Claim C5 witness: the concrete peer 203.0.113.5:54321 receives a
binding-response whose XOR-MAPPED-ADDRESS value decodes back to
203.0.113.5:54321. -/
theorem handleUDPConn_response_witness :
    ∃ msg attr, handleBuildResponse tid0 [203, 0, 113, 5] 54321 = some msg ∧
      msg.Header.Typ = BindingResponse ∧
      msg.Header.TransactionID = tid0 ∧
      msg.Header.MagicCookie = magicCookie ∧
      msg.Attributes = [attr] ∧
      attr.Typ = XORMappedAddress ∧
      decodeAddr attr.Value = some { Family := IPV4, IP := [203, 0, 113, 5], Port := 54321 } :=
  handleUDPConn_response tid0 [203, 0, 113, 5] 54321 (by decide) (by decide) (by decide)

/-- Claim C9: GetXorAddr returns (nil, nil) for non binding-response messages,
the AttributeNotFound error for a binding-response with no
XOR-MAPPED-ADDRESS attribute, and the decoded first XOR-MAPPED-ADDRESS
attribute (wire order) for a binding-response containing one. -/
theorem getXorAddr_cases (m : Message) :
    (m.Header.Typ ≠ BindingResponse → m.GetXorAddr = some (none, none)) ∧
    (m.Header.Typ = BindingResponse → (∀ a ∈ m.Attributes, a.Typ ≠ XORMappedAddress) →
      m.GetXorAddr = some (none, some StunError.attrNotFound)) ∧
    (∀ attr x, m.Header.Typ = BindingResponse → m.GetAttr XORMappedAddress = some attr →
      decodeAddr attr.Value = some x → m.GetXorAddr = some (some x, none)) := by
  refine ⟨?_, ?_, ?_⟩
  · intro h
    unfold Message.GetXorAddr
    rw [if_pos h]
  · intro h hnone
    unfold Message.GetXorAddr
    rw [if_neg (not_not_intro h)]
    have hfind : m.GetAttr XORMappedAddress = none := by
      unfold Message.GetAttr
      rw [List.find?_eq_none]
      intro a ha
      simpa using hnone a ha
    rw [hfind]
  · intro attr x h hfind hdec
    unfold Message.GetXorAddr
    rw [if_neg (not_not_intro h), hfind]
    dsimp only
    rw [hdec]

/-- Claim C9 witness: a binding-request message yields (nil, nil); a
binding-response with no attributes yields AttributeNotFound; a
binding-response holding one XOR-MAPPED-ADDRESS attribute yields its decoded
address. -/
theorem getXorAddr_cases_witness :
    Message.GetXorAddr ⟨⟨BindingRequest, 0, 0, tid0⟩, []⟩ = some (none, none) ∧
    Message.GetXorAddr ⟨⟨BindingResponse, 0, 0, tid0⟩, []⟩ =
      some (none, some StunError.attrNotFound) ∧
    Message.GetXorAddr ⟨⟨BindingResponse, 12, 0, tid0⟩,
        [⟨8, 32, 8, [0, 1, 245, 35, 234, 18, 213, 71]⟩]⟩ =
      some (some { Family := 1, IP := [203, 0, 113, 5], Port := 54321 }, none) :=
  ⟨(getXorAddr_cases ⟨⟨BindingRequest, 0, 0, tid0⟩, []⟩).1 (by decide),
   (getXorAddr_cases ⟨⟨BindingResponse, 0, 0, tid0⟩, []⟩).2.1 (by decide) (by decide),
   (getXorAddr_cases ⟨⟨BindingResponse, 12, 0, tid0⟩,
       [⟨8, 32, 8, [0, 1, 245, 35, 234, 18, 213, 71]⟩]⟩).2.2
     ⟨8, 32, 8, [0, 1, 245, 35, 234, 18, 213, 71]⟩
     { Family := 1, IP := [203, 0, 113, 5], Port := 54321 }
     (by decide) (by decide) (by decide)⟩
